import Mathlib

/-!
Verification of the sailors-log core (src/index.js) against its
natural-language specification.

This file gives a shallow embedding, in Lean, of the parts of src/index.js
that the specification's claims are about: the per-(user, project) milestone
detector (checkAndNotifyCodingMilestones), the cursor branch logic of the
heartbeat ingester (getHeartbeats), the notification-preference effects of
the polling pipeline (processNewHeartbeats), and the leaderboard aggregation
(getLeaderboard).  JavaScript numbers appearing here are integer second
counts and millisecond timestamps, modelled as Int; Math.floor(a / b) on
such values with b > 0 is Int.fdiv.  Fallible steps are modelled with
Option / Except.  Database tables are modelled as lists of rows, in
insertion order, with the query helpers the code uses (findUnique, upsert,
update) defined over them.
-/

namespace SailorsLog

/-- One entry of a summary's projects array: a key and a cumulative total
in seconds, as returned by the upstream summary API. -/
structure Project where
  key : String
  total : Int
deriving Repr, DecidableEq

/-- One entry of a summary's languages array. -/
structure LanguageEntry where
  key : String
  total : Int
deriving Repr, DecidableEq

/-- A user summary as returned by fetchUserSummary and stored in the
user_summary table.  The source accesses both arrays defensively
(summary.projects || [], maxSummary.languages?.forEach), so each field is
an Option; none models an absent or null field. -/
structure Summary where
  projects : Option (List Project)
  languages : Option (List LanguageEntry)
deriving Repr, DecidableEq

/-- NOTIFICATION_PERIOD_SECONDS from src/index.js line 15. -/
def NOTIFICATION_PERIOD_SECONDS : Int := 3600

/-- A row of the ProjectNotification watermark table: one per
(user, project), as created and updated by checkAndNotifyCodingMilestones. -/
structure ProjectNotification where
  id : Nat
  user_id : String
  project_name : String
  last_notified_at : Int
  last_total_seconds : Int
deriving Repr, DecidableEq

/-- One notification event: a call to notifyChannelsAboutCoding with
(userId, periodSeconds, totalSeconds, projectName). -/
structure NotificationEvent where
  user_id : String
  project : String
  periodSeconds : Int
  totalSeconds : Int
deriving Repr, DecidableEq

/-- Row predicate of the (user_id, project_name) unique key. -/
def watermarkPred (userId projectName : String) : ProjectNotification → Bool :=
  fun w => w.user_id == userId && w.project_name == projectName

/-- prisma.projectNotification.findUnique on the (user_id, project_name)
unique key, over the table-as-list. -/
def findWatermark (db : List ProjectNotification) (userId projectName : String) :
    Option ProjectNotification :=
  db.find? (watermarkPred userId projectName)

/-- A fresh row id for prisma.projectNotification.create. -/
def freshId (db : List ProjectNotification) : Nat :=
  db.foldl (fun m w => max m w.id) 0 + 1

/-- prisma.projectNotification.update by row id, setting last_notified_at
and last_total_seconds (src/index.js lines 517-525). -/
def updateWatermark (db : List ProjectNotification) (recId : Nat)
    (now total : Int) : List ProjectNotification :=
  db.map fun w =>
    if w.id = recId then
      { w with last_notified_at := now, last_total_seconds := total }
    else w

/-- Body of the per-project loop of checkAndNotifyCodingMilestones
(src/index.js lines 469-536).  With no existing watermark, a row is
created at the observed total and nothing is notified; otherwise
periodsCompleted = Math.floor((total - last_total_seconds) / period) and,
when at least one period completed, one notification event fires carrying
periodsCompleted * NOTIFICATION_PERIOD_SECONDS and the row is updated with
last_total_seconds := project.total. -/
def processProject (now : Int) (userId : String)
    (db : List ProjectNotification) (project : Project) :
    List ProjectNotification × List NotificationEvent :=
  match findWatermark db userId project.key with
  | none =>
      (db ++ [ { id := freshId db, user_id := userId, project_name := project.key,
                 last_notified_at := now, last_total_seconds := project.total } ], [])
  | some lastNote =>
      let secondsSinceNotification := project.total - lastNote.last_total_seconds
      let periodsCompleted := Int.fdiv secondsSinceNotification NOTIFICATION_PERIOD_SECONDS
      if 1 ≤ periodsCompleted then
        (updateWatermark db lastNote.id now project.total,
         [ { user_id := userId, project := project.key,
             periodSeconds := periodsCompleted * NOTIFICATION_PERIOD_SECONDS,
             totalSeconds := project.total } ])
      else
        (db, [])

/-- checkAndNotifyCodingMilestones (src/index.js lines 463-537): iterate
processProject over summary.projects || [], threading the watermark table
and collecting the notification events. -/
def checkAndNotifyCodingMilestones (now : Int) (userId : String)
    (summary : Summary) (db : List ProjectNotification) :
    List ProjectNotification × List NotificationEvent :=
  (summary.projects.getD []).foldl
    (fun acc project =>
      let step := processProject now userId acc.1 project
      (step.1, acc.2 ++ step.2))
    (db, [])

theorem findWatermark_append_of_none (db : List ProjectNotification)
    (userId projectName : String) (w : ProjectNotification)
    (hnone : findWatermark db userId projectName = none)
    (hu : w.user_id = userId) (hp : w.project_name = projectName) :
    findWatermark (db ++ [w]) userId projectName = some w := by
  unfold findWatermark at hnone ⊢
  have hpw : watermarkPred userId projectName w = true := by
    simp [watermarkPred, hu, hp]
  simp [hnone, hpw]

theorem findWatermark_updateWatermark (db : List ProjectNotification)
    (userId projectName : String) (w : ProjectNotification) (now total : Int)
    (hfind : findWatermark db userId projectName = some w) :
    findWatermark (updateWatermark db w.id now total) userId projectName =
      some { w with last_notified_at := now, last_total_seconds := total } := by
  induction db with
  | nil => simp [findWatermark] at hfind
  | cons x xs ih =>
      unfold findWatermark at hfind ih ⊢
      unfold updateWatermark at ih ⊢
      rw [List.map_cons]
      by_cases hx : watermarkPred userId projectName x = true
      · rw [@List.find?_cons_of_pos _ (watermarkPred userId projectName) x xs hx] at hfind
        have hxw : x = w := by injection hfind
        subst hxw
        rw [if_pos rfl]
        exact @List.find?_cons_of_pos _ (watermarkPred userId projectName) _ _ hx
      · simp only [Bool.not_eq_true] at hx
        have hupd : watermarkPred userId projectName
            (if x.id = w.id then
              { x with last_notified_at := now, last_total_seconds := total }
            else x) = false := by
          by_cases hid : x.id = w.id
          · rw [if_pos hid]
            exact hx
          · rw [if_neg hid]
            exact hx
        rw [@List.find?_cons_of_neg _ (watermarkPred userId projectName) x xs
          (by simp [hx])] at hfind
        rw [@List.find?_cons_of_neg _ (watermarkPred userId projectName) _ _
          (by simp [hupd])]
        exact ih hfind

theorem periods_lt_one_of_delta_nonpos {delta : Int} (h : delta ≤ 0) :
    Int.fdiv delta NOTIFICATION_PERIOD_SECONDS < 1 := by
  rcases lt_or_eq_of_le h with hlt | heq
  · have hneg : Int.fdiv delta NOTIFICATION_PERIOD_SECONDS < 0 :=
      Int.fdiv_neg' hlt (by decide)
    exact lt_trans hneg (by decide)
  · rw [heq, Int.zero_fdiv]
    decide

/-- C6: on first observation of a (user, project) pair with no existing
watermark row, the detector creates a watermark whose last_total_seconds
equals the observed total and fires zero notifications. -/
theorem first_seen_creates_watermark_fires_nothing
    (now : Int) (userId : String) (db : List ProjectNotification) (p : Project)
    (hnone : findWatermark db userId p.key = none) :
    (processProject now userId db p).2 = [] ∧
    findWatermark (processProject now userId db p).1 userId p.key =
      some { id := freshId db, user_id := userId, project_name := p.key,
             last_notified_at := now, last_total_seconds := p.total } := by
  unfold processProject
  rw [hnone]
  refine ⟨rfl, ?_⟩
  exact findWatermark_append_of_none db userId p.key _ hnone rfl rfl

/-- Witness for C6 at a concrete input: an empty watermark table, project
"p" observed at total 42. -/
theorem first_seen_creates_watermark_fires_nothing_witness :
    (processProject 5 "U" [] { key := "p", total := 42 }).2 = [] ∧
    findWatermark (processProject 5 "U" [] { key := "p", total := 42 }).1 "U" "p" =
      some { id := freshId [], user_id := "U", project_name := "p",
             last_notified_at := 5, last_total_seconds := 42 } :=
  first_seen_creates_watermark_fires_nothing 5 "U" [] { key := "p", total := 42 } (by decide)

/-- C7: with an existing watermark and observed total at most the recorded
last_total_seconds (delta at most zero), the detector fires zero
notifications and returns the watermark table unchanged, every field of
every row included. -/
theorem nonpositive_delta_is_noop
    (now : Int) (userId : String) (db : List ProjectNotification)
    (p : Project) (w : ProjectNotification)
    (hfind : findWatermark db userId p.key = some w)
    (hle : p.total ≤ w.last_total_seconds) :
    processProject now userId db p = (db, []) := by
  unfold processProject
  rw [hfind]
  have h1 : Int.fdiv (p.total - w.last_total_seconds) NOTIFICATION_PERIOD_SECONDS < 1 :=
    periods_lt_one_of_delta_nonpos (by omega)
  simp only [if_neg (not_le.mpr h1)]

/-- Witness for C7 at a concrete input: watermark at 50 seconds, new
observation of 10 seconds. -/
theorem nonpositive_delta_is_noop_witness :
    processProject 7 "U"
        [ { id := 1, user_id := "U", project_name := "p",
            last_notified_at := 0, last_total_seconds := 50 } ]
        { key := "p", total := 10 } =
      ([ { id := 1, user_id := "U", project_name := "p",
           last_notified_at := 0, last_total_seconds := 50 } ], []) :=
  nonpositive_delta_is_noop 7 "U" _ _
    { id := 1, user_id := "U", project_name := "p",
      last_notified_at := 0, last_total_seconds := 50 }
    (by decide) (by decide)

/-- Counterexample to C1 as stated: from a watermark of 3000 and a new
total of 8000 (period 3600), the code updates last_total_seconds to the
observed total 8000 — not to 3000 + 1 * 3600 = 6600 as the claim asserts.
The single notification does carry periods * NOTIFICATION_PERIOD_SECONDS. -/
theorem milestone_watermark_set_to_total_not_remainder :
    processProject 99 "U"
        [ { id := 1, user_id := "U", project_name := "p1",
            last_notified_at := 0, last_total_seconds := 3000 } ]
        { key := "p1", total := 8000 } =
      ([ { id := 1, user_id := "U", project_name := "p1",
           last_notified_at := 99, last_total_seconds := 8000 } ],
       [ { user_id := "U", project := "p1", periodSeconds := 3600,
           totalSeconds := 8000 } ]) ∧
    (8000 : Int) ≠ 3000 + 1 * 3600 := by
  refine ⟨?_, by decide⟩
  decide

/-- C1 amended: with an existing watermark and at least one completed
period, exactly one notification event fires carrying
periods * NOTIFICATION_PERIOD_SECONDS together with the observed total, and
the watermark row is updated with last_total_seconds set to the observed
total (discarding any sub-period remainder). -/
theorem milestone_fires_once_and_sets_watermark_to_total
    (now : Int) (userId : String) (db : List ProjectNotification)
    (p : Project) (w : ProjectNotification)
    (hfind : findWatermark db userId p.key = some w)
    (hper : 1 ≤ Int.fdiv (p.total - w.last_total_seconds) NOTIFICATION_PERIOD_SECONDS) :
    (processProject now userId db p).2 =
      [ { user_id := userId, project := p.key,
          periodSeconds := Int.fdiv (p.total - w.last_total_seconds)
              NOTIFICATION_PERIOD_SECONDS * NOTIFICATION_PERIOD_SECONDS,
          totalSeconds := p.total } ] ∧
    findWatermark (processProject now userId db p).1 userId p.key =
      some { w with last_notified_at := now, last_total_seconds := p.total } := by
  unfold processProject
  rw [hfind]
  simp only [if_pos hper]
  exact ⟨trivial, findWatermark_updateWatermark db userId p.key w now p.total hfind⟩

/-- Witness for the amended C1 at a concrete input: watermark at 0, new
total 7300, so two periods complete, the event carries 7200, and the
watermark becomes 7300. -/
theorem milestone_fires_once_witness :
    (processProject 5 "U"
        [ { id := 1, user_id := "U", project_name := "p",
            last_notified_at := 0, last_total_seconds := 0 } ]
        { key := "p", total := 7300 }).2 =
      [ { user_id := "U", project := "p", periodSeconds := 7200,
          totalSeconds := 7300 } ] ∧
    findWatermark (processProject 5 "U"
        [ { id := 1, user_id := "U", project_name := "p",
            last_notified_at := 0, last_total_seconds := 0 } ]
        { key := "p", total := 7300 }).1 "U" "p" =
      some { id := 1, user_id := "U", project_name := "p",
             last_notified_at := 5, last_total_seconds := 7300 } :=
  milestone_fires_once_and_sets_watermark_to_total 5 "U" _ _
    { id := 1, user_id := "U", project_name := "p",
      last_notified_at := 0, last_total_seconds := 0 }
    (by decide) (by decide)

/-- C9: a summary whose projects field is absent (none, covering a missing
or null field) or an empty list makes the milestone detector a total
no-op: the watermark table is returned unchanged and no notification is
sent; the embedded function is total, matching the source loop over
summary.projects || [] which cannot throw on such input. -/
theorem empty_projects_milestone_noop
    (now : Int) (userId : String) (summary : Summary)
    (db : List ProjectNotification)
    (h : summary.projects = none ∨ summary.projects = some []) :
    checkAndNotifyCodingMilestones now userId summary db = (db, []) := by
  rcases h with h | h <;> simp [checkAndNotifyCodingMilestones, h]

/-- Witness for C9 at concrete inputs covering both the absent and the
empty projects field. -/
theorem empty_projects_milestone_noop_witness :
    checkAndNotifyCodingMilestones 0 "U" { projects := none, languages := none }
        [ { id := 1, user_id := "U", project_name := "p",
            last_notified_at := 0, last_total_seconds := 50 } ] =
      ([ { id := 1, user_id := "U", project_name := "p",
           last_notified_at := 0, last_total_seconds := 50 } ], []) :=
  empty_projects_milestone_noop 0 "U" { projects := none, languages := none } _
    (Or.inl rfl)

/-- A JavaScript runtime error raised by the embedded code. -/
inductive JsError where
  | referenceError
deriving Repr, DecidableEq

/-- Fields of an upstream heartbeats row that the embedded ingest and
pipeline logic read; created_at is a millisecond timestamp.  The remaining
columns of the source row (entity, branch, editor, line counts, ...) are
copied verbatim by storeHeartbeats and never affect the branch logic the
claims are about. -/
structure Heartbeat where
  id : Nat
  user_id : String
  created_at : Int
deriving Repr, DecidableEq

/-- POLL_INTERVAL from src/index.js line 13, in milliseconds. -/
def POLL_INTERVAL : Int := 5 * 1000

/-- RETENTION_HOURS from src/index.js line 14. -/
def RETENTION_HOURS : Int := 24

/-- The retention window in milliseconds, RETENTION_HOURS * 60 * 60 * 1000
as computed at src/index.js line 320. -/
def RETENTION_MS : Int := RETENTION_HOURS * 60 * 60 * 1000

/-- prisma.syncedHeartbeat.findFirst ordered by created_at descending:
the created_at of the most recently synced heartbeat, none when the table
is empty. -/
def lastSyncedCreatedAt (synced : List Heartbeat) : Option Int :=
  (synced.map (fun hb => hb.created_at)).max?

/-- ORDER BY created_at DESC over the selected upstream rows. -/
def sortByCreatedAtDesc (rows : List Heartbeat) : List Heartbeat :=
  List.insertionSort (fun a b => b.created_at ≤ a.created_at) rows

/-- prisma.syncedHeartbeat.upsert keyed by id (src/index.js lines 283-287):
replace the row with the same id if present, insert otherwise. -/
def upsertHeartbeat (synced : List Heartbeat) (hb : Heartbeat) : List Heartbeat :=
  if synced.any (fun s => s.id == hb.id) then
    synced.map (fun s => if s.id == hb.id then hb else s)
  else synced ++ [hb]

/-- storeHeartbeats (src/index.js lines 229-306) restricted to its effect
on the synced-heartbeat table: upsert every selected row. -/
def storeHeartbeats (synced : List Heartbeat) (rows : List Heartbeat) :
    List Heartbeat :=
  rows.foldl upsertHeartbeat synced

/-- getHeartbeats (src/index.js lines 308-369): the three-way cursor
branch.  With no synced heartbeat, select the 500 most recent upstream
rows; with a fresh cursor, select rows strictly newer than it; with a
cursor older than the retention cutoff, the source executes
`startTime = new Date(Date.now() - POLL_INTERVAL);` (line 332) —
`startTime` is declared nowhere in the module, and ES modules run in
strict mode, so this assignment throws a ReferenceError before any query
is built; the function's catch block rethrows, so the branch is modelled
as Except.error and nothing is selected or stored in that cycle. -/
def getHeartbeats (now : Int) (upstream synced : List Heartbeat) :
    Except JsError (List Heartbeat × List Heartbeat) :=
  let cutoffTime := now - RETENTION_MS
  match lastSyncedCreatedAt synced with
  | none =>
      let rows := (sortByCreatedAtDesc upstream).take 500
      Except.ok (rows, storeHeartbeats synced rows)
  | some lastCreated =>
      if lastCreated < cutoffTime then
        Except.error JsError.referenceError
      else
        let rows := sortByCreatedAtDesc
          (upstream.filter (fun hb => lastCreated < hb.created_at))
        Except.ok (rows, storeHeartbeats synced rows)

/-- Concrete stale-cursor state: one synced heartbeat created at time 0,
observed at now = 100000000 ms (well past the 86400000 ms retention
window), with a new upstream row available. -/
def syncedStale : List Heartbeat :=
  [ { id := 1, user_id := "U1", created_at := 0 } ]

/-- Upstream rows available in the stale-cursor scenario. -/
def upstreamStale : List Heartbeat :=
  [ { id := 2, user_id := "U1", created_at := 99999999 } ]

/-- C2: with a cursor older than the retention window, the ingest cycle
does not re-bootstrap and complete as the specification says: the
undeclared-variable assignment on src/index.js line 332 raises a
ReferenceError, the cycle aborts, and no upstream record is selected or
stored. -/
theorem stale_cursor_cycle_aborts :
    getHeartbeats 100000000 upstreamStale syncedStale =
      Except.error JsError.referenceError := by
  rfl

/-- A row of the SlackNotificationPreference table. -/
structure SlackNotificationPreference where
  slack_user_id : String
  slack_channel_id : String
  enabled : Bool
deriving Repr, DecidableEq

/-- prisma.slackNotificationPreference.findUnique on the
(slack_user_id, slack_channel_id) unique key. -/
def findPreference (prefs : List SlackNotificationPreference)
    (userId channelId : String) : Option SlackNotificationPreference :=
  prefs.find? (fun p => p.slack_user_id == userId && p.slack_channel_id == channelId)

/-- Auto-subscribe block of processNewHeartbeats (src/index.js lines
740-766): when a default channel is configured and the user has no
preference row for it, create one with enabled = true. -/
def autoSubscribe (defaultChannel : Option String)
    (prefs : List SlackNotificationPreference) (userId : String) :
    List SlackNotificationPreference :=
  match defaultChannel with
  | none => prefs
  | some channelId =>
      match findPreference prefs userId channelId with
      | some _ => prefs
      | none =>
          prefs ++ [ { slack_user_id := userId, slack_channel_id := channelId,
                       enabled := true } ]

/-- Users of a heartbeat batch in first-occurrence order: the iteration
order of Object.entries over the reduce grouping at src/index.js lines
729-737. -/
def distinctUsers (heartbeats : List Heartbeat) : List String :=
  heartbeats.foldl
    (fun acc hb => if acc.contains hb.user_id then acc else acc ++ [hb.user_id])
    []

/-- Persistent state touched by one run of the polling pipeline. -/
structure PipelineState where
  prefs : List SlackNotificationPreference
  watermarks : List ProjectNotification
  storedSummaries : List (String × Summary)
deriving Repr, DecidableEq

/-- Per-user body of processNewHeartbeats (src/index.js lines 737-795):
auto-subscribe to the default channel, look up the user's API key
(getUserApiKey; none models a missing credential), fetch the summary
(fetchUserSummary; none models a failed fetch), store the snapshot in
user_summary, then run the milestone detector. -/
def processUserHeartbeats (defaultChannel : Option String)
    (apiKeys : String → Option String) (fetchSummary : String → Option Summary)
    (now : Int) (st : PipelineState) (userId : String) :
    PipelineState × List NotificationEvent :=
  let st1 := { st with prefs := autoSubscribe defaultChannel st.prefs userId }
  match apiKeys userId with
  | none => (st1, [])
  | some key =>
      match fetchSummary key with
      | none => (st1, [])
      | some summary =>
          let st2 := { st1 with
            storedSummaries := st1.storedSummaries ++ [(userId, summary)] }
          let step := checkAndNotifyCodingMilestones now userId summary st2.watermarks
          ({ st2 with watermarks := step.1 }, step.2)

/-- processNewHeartbeats (src/index.js lines 726-797): group the batch by
user and process each user in first-occurrence order. -/
def processNewHeartbeats (defaultChannel : Option String)
    (apiKeys : String → Option String) (fetchSummary : String → Option Summary)
    (now : Int) (st : PipelineState) (heartbeats : List Heartbeat) :
    PipelineState × List NotificationEvent :=
  (distinctUsers heartbeats).foldl
    (fun acc userId =>
      let step := processUserHeartbeats defaultChannel apiKeys fetchSummary now
        acc.1 userId
      (step.1, acc.2 ++ step.2))
    (st, [])

/-- An empty pipeline state. -/
def emptyState : PipelineState :=
  { prefs := [], watermarks := [], storedSummaries := [] }

/-- A user directory with no API keys. -/
def noApiKeys : String → Option String := fun _ => none

/-- A summary capability that always fails. -/
def noSummaries : String → Option Summary := fun _ => none

/-- Counterexample to C4 as stated: a run of the polling pipeline over a
batch containing user "U1", with default channel "C0" configured and no
existing preference rows, inserts an enabled preference row — the
notification-preference table is not left unchanged. -/
theorem polling_pipeline_writes_preferences :
    (processNewHeartbeats (some "C0") noApiKeys noSummaries 0 emptyState
        [ { id := 1, user_id := "U1", created_at := 0 } ]).1.prefs =
      [ { slack_user_id := "U1", slack_channel_id := "C0", enabled := true } ] ∧
    [ { slack_user_id := "U1", slack_channel_id := "C0", enabled := true } ] ≠
      ([] : List SlackNotificationPreference) := by
  refine ⟨?_, by decide⟩
  decide

theorem processUserHeartbeats_prefs (defaultChannel : Option String)
    (apiKeys : String → Option String) (fetchSummary : String → Option Summary)
    (now : Int) (st : PipelineState) (userId : String) :
    (processUserHeartbeats defaultChannel apiKeys fetchSummary now st userId).1.prefs =
      autoSubscribe defaultChannel st.prefs userId := by
  unfold processUserHeartbeats
  cases apiKeys userId with
  | none => rfl
  | some key =>
      dsimp only
      cases fetchSummary key with
      | none => rfl
      | some summary => rfl

theorem mem_autoSubscribe_of_mem (defaultChannel : Option String)
    (prefs : List SlackNotificationPreference) (userId : String)
    (p : SlackNotificationPreference) (hp : p ∈ prefs) :
    p ∈ autoSubscribe defaultChannel prefs userId := by
  unfold autoSubscribe
  cases defaultChannel with
  | none => exact hp
  | some channelId =>
      dsimp only
      cases findPreference prefs userId channelId with
      | some q => exact hp
      | none => exact List.mem_append_left _ hp

theorem mem_of_mem_autoSubscribe (defaultChannel : Option String)
    (prefs : List SlackNotificationPreference) (userId : String)
    (p : SlackNotificationPreference)
    (hp : p ∈ autoSubscribe defaultChannel prefs userId) :
    p ∈ prefs ∨
      (p.enabled = true ∧ defaultChannel = some p.slack_channel_id ∧
       p.slack_user_id = userId ∧
       findPreference prefs p.slack_user_id p.slack_channel_id = none) := by
  unfold autoSubscribe at hp
  cases hdc : defaultChannel with
  | none => rw [hdc] at hp; exact Or.inl hp
  | some channelId =>
      rw [hdc] at hp
      dsimp only at hp
      cases hf : findPreference prefs userId channelId with
      | some q => rw [hf] at hp; exact Or.inl hp
      | none =>
          rw [hf] at hp
          rcases List.mem_append.mp hp with hin | hnew
          · exact Or.inl hin
          · right
            have hpv : p = { slack_user_id := userId,
                             slack_channel_id := channelId, enabled := true } := by
              simpa using hnew
            subst hpv
            exact ⟨rfl, rfl, rfl, hf⟩

theorem findPreference_none_of_subset
    (prefs bigger : List SlackNotificationPreference) (userId channelId : String)
    (hsub : ∀ p ∈ prefs, p ∈ bigger)
    (hnone : findPreference bigger userId channelId = none) :
    findPreference prefs userId channelId = none := by
  unfold findPreference at hnone ⊢
  rw [List.find?_eq_none] at hnone ⊢
  intro x hx
  exact hnone x (hsub x hx)

theorem pipeline_fold_prefs (defaultChannel : Option String)
    (apiKeys : String → Option String) (fetchSummary : String → Option Summary)
    (now : Int) (users : List String) :
    ∀ (st : PipelineState) (evs : List NotificationEvent),
    (∀ p ∈ st.prefs, p ∈ (users.foldl
        (fun acc userId =>
          let step := processUserHeartbeats defaultChannel apiKeys fetchSummary now
            acc.1 userId
          (step.1, acc.2 ++ step.2))
        (st, evs)).1.prefs) ∧
    (∀ p ∈ (users.foldl
        (fun acc userId =>
          let step := processUserHeartbeats defaultChannel apiKeys fetchSummary now
            acc.1 userId
          (step.1, acc.2 ++ step.2))
        (st, evs)).1.prefs,
      p ∈ st.prefs ∨
        (p.enabled = true ∧ defaultChannel = some p.slack_channel_id ∧
         p.slack_user_id ∈ users ∧
         findPreference st.prefs p.slack_user_id p.slack_channel_id = none)) := by
  induction users with
  | nil => exact fun st evs => ⟨fun p hp => hp, fun p hp => Or.inl hp⟩
  | cons u rest ih =>
      intro st evs
      rw [List.foldl_cons]
      have hstep := processUserHeartbeats_prefs defaultChannel apiKeys fetchSummary
        now st u
      constructor
      · intro p hp
        have h1 : p ∈ (processUserHeartbeats defaultChannel apiKeys fetchSummary
            now st u).1.prefs := by
          rw [hstep]
          exact mem_autoSubscribe_of_mem defaultChannel st.prefs u p hp
        exact (ih _ _).1 p h1
      · intro p hp
        rcases (ih _ _).2 p hp with hin | ⟨hen, hdc, hu, hf⟩
        · rw [hstep] at hin
          rcases mem_of_mem_autoSubscribe defaultChannel st.prefs u p hin with
            hold | ⟨hen, hdc, hu, hf⟩
          · exact Or.inl hold
          · exact Or.inr ⟨hen, hdc, by rw [hu]; exact List.mem_cons_self u rest, hf⟩
        · refine Or.inr ⟨hen, hdc, List.mem_cons_of_mem u hu, ?_⟩
          rw [hstep] at hf
          exact findPreference_none_of_subset st.prefs _ _ _
            (fun q hq => mem_autoSubscribe_of_mem defaultChannel st.prefs u q hq) hf

/-- C4 amended: one run of the polling pipeline preserves every existing
notification-preference row, and every row it adds is an auto-subscribe
row — enabled, for the configured default channel, for a user of the
ingested batch who had no row for that channel before the run.  With no
default channel configured, the table is unchanged. -/
theorem pipeline_preference_changes_are_auto_subscribes
    (defaultChannel : Option String) (apiKeys : String → Option String)
    (fetchSummary : String → Option Summary) (now : Int)
    (st : PipelineState) (heartbeats : List Heartbeat) :
    (∀ p ∈ st.prefs,
       p ∈ (processNewHeartbeats defaultChannel apiKeys fetchSummary now st
         heartbeats).1.prefs) ∧
    (∀ p ∈ (processNewHeartbeats defaultChannel apiKeys fetchSummary now st
         heartbeats).1.prefs,
       p ∈ st.prefs ∨
         (p.enabled = true ∧ defaultChannel = some p.slack_channel_id ∧
          p.slack_user_id ∈ distinctUsers heartbeats ∧
          findPreference st.prefs p.slack_user_id p.slack_channel_id = none)) := by
  unfold processNewHeartbeats
  exact pipeline_fold_prefs defaultChannel apiKeys fetchSummary now
    (distinctUsers heartbeats) st []

/-- Concrete starting state for the C4 witness: one existing preference
row. -/
def stateWitness : PipelineState :=
  { prefs := [ { slack_user_id := "U2", slack_channel_id := "C1", enabled := true } ],
    watermarks := [], storedSummaries := [] }

/-- Witness for the amended C4 at a concrete input: the pre-existing row
for user "U2" survives a pipeline run that auto-subscribes user "U9". -/
theorem pipeline_preference_changes_witness :
    { slack_user_id := "U2", slack_channel_id := "C1",
      enabled := true : SlackNotificationPreference } ∈
      (processNewHeartbeats (some "C1") noApiKeys noSummaries 0 stateWitness
        [ { id := 1, user_id := "U9", created_at := 0 } ]).1.prefs :=
  (pipeline_preference_changes_are_auto_subscribes (some "C1") noApiKeys
    noSummaries 0 stateWitness
    [ { id := 1, user_id := "U9", created_at := 0 } ]).1
    { slack_user_id := "U2", slack_channel_id := "C1", enabled := true }
    (by decide)

/-- Lookup in a JavaScript Map built with `new Map(entries)`: when the
same key occurs more than once the later entry wins, so the last matching
entry is read; absent keys give the supplied default (the code's
`|| 0`). -/
def mapGetD (entries : List (String × Int)) (k : String) (d : Int) : Int :=
  match entries.reverse.find? (fun e => e.1 == k) with
  | some e => e.2
  | none => d

/-- Effect on one table entry of adding langKey to the set stored under
projKey: Set.add ignores duplicates and Map.set keeps the entry in place. -/
def addLangEntry (projKey langKey : String) (e : String × List String) :
    String × List String :=
  if e.1 == projKey then
    (e.1, if e.2.contains langKey then e.2 else e.2 ++ [langKey])
  else e

/-- projectLanguages.get(proj.key).add(lang.key) over the Map-of-Sets,
modelled as an association list of lists: update the existing entry in
place, or append a fresh singleton entry for a new key. -/
def setAddLang (table : List (String × List String)) (projKey langKey : String) :
    List (String × List String) :=
  if table.any (fun e => e.1 == projKey) then
    table.map (addLangEntry projKey langKey)
  else table ++ [(projKey, [langKey])]

/-- projectLanguages.get(k) || [] as an element list. -/
def setLookup (table : List (String × List String)) (k : String) : List String :=
  match table.find? (fun e => e.1 == k) with
  | some e => e.2
  | none => []

/-- The minLanguages Map of getLeaderboard (src/index.js line 622), built
from the min summary's languages array (or [] when absent). -/
def minLangTableOf (minS : Summary) : List (String × Int) :=
  (minS.languages.getD []).map (fun l => (l.key, l.total))

/-- The projectLanguages grouping of getLeaderboard (src/index.js lines
624-636): for each language of the max summary whose min-to-max delta is
positive, add its key to the language set of every project of the max
summary. -/
def buildProjectLanguages (maxLangs : List LanguageEntry)
    (minLangTable : List (String × Int)) (maxProjects : List Project) :
    List (String × List String) :=
  maxLangs.foldl
    (fun table lang =>
      if 0 < lang.total - mapGetD minLangTable lang.key 0 then
        maxProjects.foldl (fun t proj => setAddLang t proj.key lang.key) table
      else table)
    []

/-- The language table getLeaderboard builds for a given pair of min/max
summaries and the max summary's project list. -/
def langTableOf (minS maxS : Summary) (maxProjects : List Project) :
    List (String × List String) :=
  buildProjectLanguages (maxS.languages.getD []) (minLangTableOf minS) maxProjects

/-- Value of the projectStats Map: incremental seconds and the sorted
associated language keys. -/
structure ProjectStat where
  seconds : Int
  languages : List String
deriving Repr, DecidableEq

/-- JavaScript Array.prototype.sort() on an array of strings: lexicographic
ascending (the language and project names involved are plain identifiers,
for which code-unit order and codepoint order agree). -/
def sortStrings (l : List String) : List String :=
  List.insertionSort (fun a b : String => a ≤ b) l

/-- projectStats.set(k, v): replace in place or append. -/
def setStat (stats : List (String × ProjectStat)) (k : String) (v : ProjectStat) :
    List (String × ProjectStat) :=
  if stats.any (fun e => e.1 == k) then
    stats.map (fun e => if e.1 == k then (k, v) else e)
  else stats ++ [(k, v)]

/-- The projectStats computation of getLeaderboard (src/index.js lines
619-648): guarded on both summaries carrying a projects array (an empty
array is truthy and passes the guard), then for each project of the max
summary with positive min-to-max delta, record the delta and the sorted
associated languages. -/
def computeProjectStats (minSummary maxSummary : Option Summary) :
    List (String × ProjectStat) :=
  match maxSummary, minSummary with
  | some maxS, some minS =>
      match maxS.projects, minS.projects with
      | some maxProjects, some minProjectsList =>
          let minProjects := minProjectsList.map (fun p => (p.key, p.total))
          let table := langTableOf minS maxS maxProjects
          maxProjects.foldl
            (fun stats p =>
              if 0 < p.total - mapGetD minProjects p.key 0 then
                setStat stats p.key
                  { seconds := p.total - mapGetD minProjects p.key 0,
                    languages := sortStrings (setLookup table p.key) }
              else stats)
            []
      | _, _ => []
  | _, _ => []

/-- data.projects?.reduce((total, project) => total + (project.total || 0), 0) || 0
(src/index.js line 605). -/
def summaryTotalSeconds (data : Summary) : Int :=
  match data.projects with
  | none => 0
  | some ps => ps.foldl (fun acc p => acc + p.total) 0

/-- Accumulator of the min/max scan of getLeaderboard (src/index.js lines
598-614): minSeconds starts at Infinity (modelled none, so the first
comparison always succeeds), maxSeconds starts at 0, and the two summaries
start undefined. -/
structure MinMaxAcc where
  minSeconds : Option Int
  maxSeconds : Int
  minSummary : Option Summary
  maxSummary : Option Summary
deriving Repr, DecidableEq

/-- One iteration of the summaries.forEach min/max scan. -/
def minMaxStep (acc : MinMaxAcc) (data : Summary) : MinMaxAcc :=
  let totalSeconds := summaryTotalSeconds data
  let isNewMin : Bool :=
    match acc.minSeconds with
    | none => true
    | some m => decide (totalSeconds < m)
  let acc1 :=
    if isNewMin then
      { acc with minSeconds := some totalSeconds, minSummary := some data }
    else acc
  if acc1.maxSeconds < totalSeconds then
    { acc1 with maxSeconds := totalSeconds, maxSummary := some data }
  else acc1

/-- Result of JSON.parse(summary.summary_data) for one stored snapshot:
Except.error models a parse throw. -/
abbrev RawSummary := Except Unit Summary

/-- Parse every snapshot in order; the first throw aborts (the source
parses inside summaries.forEach within the per-subscriber try block, so
one bad blob throws out of the whole block). -/
def parseSummaries : List RawSummary → Except Unit (List Summary)
  | [] => Except.ok []
  | raw :: rest =>
      match raw with
      | Except.error e => Except.error e
      | Except.ok data =>
          match parseSummaries rest with
          | Except.error e => Except.error e
          | Except.ok datas => Except.ok (data :: datas)

/-- One entry of userStats (src/index.js lines 652-657). -/
structure UserStat where
  user_id : String
  total_minutes : Int
  total_seconds : Int
  projects : List (String × ProjectStat)
deriving Repr, DecidableEq

/-- Per-subscriber block of getLeaderboard (src/index.js lines 576-662):
skip the user with fewer than two snapshots in the window, skip on a parse
throw (the try/catch wraps the whole block), scan min/max, and keep the
user only when maxSeconds - minSeconds is positive.  With at least two
snapshots the scan always sets minSeconds, so the getD 0 default on the
modelled Infinity is never read. -/
def processSubscriber (userId : String) (summaries : List RawSummary) :
    Option UserStat :=
  if summaries.length < 2 then none
  else
    match parseSummaries summaries with
    | Except.error _ => none
    | Except.ok datas =>
        let acc := datas.foldl minMaxStep
          { minSeconds := none, maxSeconds := 0,
            minSummary := none, maxSummary := none }
        let totalSeconds := acc.maxSeconds - acc.minSeconds.getD 0
        if 0 < totalSeconds then
          some { user_id := userId,
                 total_minutes := Int.fdiv totalSeconds 60,
                 total_seconds := totalSeconds,
                 projects := computeProjectStats acc.minSummary acc.maxSummary }
        else none

/-- The language denylist of the breakdown rendering
(src/index.js line 693). -/
def languageDenylist : List String :=
  [ "unknown", "AUTO_DETECTED", "PLAIN_TEXT", "Text" ]

/-- stats.languages.filter(...).sort()[0] || '' (src/index.js lines
692-694): the displayed main language of a project. -/
def mainLanguage (stats : ProjectStat) : String :=
  (sortStrings (stats.languages.filter
    (fun lang => !(languageDenylist.contains lang)))).headD ""

/-- The language keys of a project's set, filtered through the denylist. -/
def langFiltered (table : List (String × List String)) (k : String) :
    List String :=
  (setLookup table k).filter (fun lang => !(languageDenylist.contains lang))

/-- The project breakdown of one leaderboard line (src/index.js lines
686-698): entries sorted by descending seconds, zero-minute entries
dropped, each rendered as (project, main language, minutes). -/
def renderBreakdown (projects : List (String × ProjectStat)) :
    List (String × String × Int) :=
  ((List.insertionSort
      (fun a b : String × ProjectStat => b.2.seconds ≤ a.2.seconds) projects).filter
    (fun e => 0 < Int.fdiv e.2.seconds 60)).map
    (fun e => (e.1, mainLanguage e.2, Int.fdiv e.2.seconds 60))

/-- userStats.sort((a, b) => b.total_minutes - a.total_minutes): stable
descending sort by total minutes. -/
def sortByMinutesDesc (stats : List UserStat) : List UserStat :=
  List.insertionSort (fun a b : UserStat => b.total_minutes ≤ a.total_minutes) stats

/-- The ranked list of getLeaderboard (src/index.js lines 665-667): the
qualifying users sorted by minutes descending and cut with slice(0, 10).
The source function takes no limit argument. -/
def leaderboardList (subscribers : List (String × List RawSummary)) :
    List UserStat :=
  (sortByMinutesDesc (subscribers.filterMap
    (fun s => processSubscriber s.1 s.2))).take 10

/-- One rendered leaderboard line (src/index.js lines 677-701).  The `%` on
total_minutes is JavaScript's truncating remainder; total_minutes is
non-negative here, where it agrees with Int.emod. -/
def formatLine (index : Nat) (entry : UserStat) : String :=
  let medal :=
    if index == 0 then "🥇"
    else if index == 1 then "🥈"
    else if index == 2 then "🥉"
    else "▫️"
  let hours := Int.fdiv entry.total_minutes 60
  let minutes := Int.emod entry.total_minutes 60
  let timeStr :=
    if 0 < hours then toString hours ++ "h " ++ toString minutes ++ "m"
    else toString minutes ++ "m"
  let breakdown := String.intercalate " + "
    ((renderBreakdown entry.projects).map
      (fun e => e.1 ++ " [" ++ e.2.1 ++ "]: " ++ toString e.2.2 ++ "m"))
  medal ++ " <@" ++ entry.user_id ++ ">: " ++ timeStr ++ " → " ++ breakdown ++ "\n"

/-- getLeaderboard (src/index.js lines 552-704) from the fetched data: for
each enabled subscriber of the channel, the parse results of that user's
snapshots in the window, in ascending creation order.  Returns the
formatted message (or the informational line when nobody qualifies). -/
def getLeaderboard (subscribers : List (String × List RawSummary))
    (period : String) : String :=
  let leaderboard := leaderboardList subscribers
  if leaderboard.isEmpty then
    "No coding activity found for " ++
      (if period == "week" then "this week" else "today") ++ "."
  else
    let timeframe := if period == "week" then "This Week" else "Today"
    "🏆 *Coding Leaderboard - " ++ timeframe ++ "*\n\n" ++
      String.join (leaderboard.enum.map (fun e => formatLine e.1 e.2))

/-- C3 amended: the leaderboard has no limit argument; for every input the
ranked list is the qualifying users truncated to the top 10. -/
theorem leaderboard_always_truncates_to_ten
    (subscribers : List (String × List RawSummary)) :
    (leaderboardList subscribers).length =
      min 10 (subscribers.filterMap (fun s => processSubscriber s.1 s.2)).length := by
  unfold leaderboardList sortByMinutesDesc
  rw [List.length_take, List.length_insertionSort]

/-- One of eleven qualifying subscribers, each with two well-formed
snapshots and distinct positive totals. -/
def subscriberElevens (i : Nat) : String × List RawSummary :=
  ("U" ++ toString i,
   [ Except.ok { projects := some [ { key := "p", total := 0 } ],
                 languages := none },
     Except.ok { projects := some [ { key := "p", total := 60 * ((i : Int) + 1) } ],
                 languages := none } ])

/-- Eleven qualifying subscribers. -/
def subscribersEleven : List (String × List RawSummary) :=
  (List.range 11).map subscriberElevens

/-- Counterexample to C3 as stated: getLeaderboard takes no limit argument
(handleSlashCommand accepts only "leaderboard" and "leaderboard week" and
calls getLeaderboard(channel_id, period)); with eleven qualifying users the
ranked list always has exactly 10 entries, so no input shows all eleven. -/
theorem leaderboard_caps_eleven_at_ten :
    (subscribersEleven.filterMap (fun s => processSubscriber s.1 s.2)).length = 11 ∧
    (leaderboardList subscribersEleven).length = 10 := by
  refine ⟨?_, ?_⟩ <;> rfl

/-- The two snapshots of the C5 scenario: project p1 at cumulative totals
100 and then 700 seconds. -/
def summariesTwoSnapshots : List RawSummary :=
  [ Except.ok { projects := some [ { key := "p1", total := 100 } ],
                languages := none },
    Except.ok { projects := some [ { key := "p1", total := 700 } ],
                languages := none } ]

/-- C5: with exactly the two snapshots (p1 at 100 and p1 at 700) the user's
computed window total is 600 seconds = 10 minutes, and p1 appears in the
rendered breakdown with 10 minutes. -/
theorem leaderboard_diff_two_snapshots :
    processSubscriber "U" summariesTwoSnapshots =
      some { user_id := "U", total_minutes := 10, total_seconds := 600,
             projects := [ ("p1", { seconds := 600, languages := [] }) ] } ∧
    renderBreakdown [ ("p1", { seconds := 600, languages := [] }) ] =
      [ ("p1", "", 10) ] := by
  refine ⟨?_, ?_⟩ <;> rfl

theorem parseSummaries_error_of_mem (ss : List RawSummary)
    (h : Except.error () ∈ ss) : parseSummaries ss = Except.error () := by
  induction ss with
  | nil => cases h
  | cons raw rest ih =>
      cases raw with
      | error e =>
          cases e
          rfl
      | ok data =>
          have hrest : Except.error () ∈ rest := by
            rcases List.mem_cons.mp h with heq | hmem
            · simp at heq
            · exact hmem
          unfold parseSummaries
          rw [ih hrest]

theorem processSubscriber_none_of_error (userId : String) (ss : List RawSummary)
    (h : Except.error () ∈ ss) : processSubscriber userId ss = none := by
  unfold processSubscriber
  by_cases hlen : ss.length < 2
  · rw [if_pos hlen]
  · rw [if_neg hlen, parseSummaries_error_of_mem ss h]

/-- C10: a subscriber whose stored snapshot data fails to parse is simply
excluded: the leaderboard message over the list with that subscriber
equals the message computed without them, so every other subscriber is
still processed and ranked and a formatted message is still returned. -/
theorem subscriber_failure_excludes_only_that_subscriber
    (pre post : List (String × List RawSummary)) (userId : String)
    (ss : List RawSummary) (period : String)
    (h : Except.error () ∈ ss) :
    getLeaderboard (pre ++ (userId, ss) :: post) period =
      getLeaderboard (pre ++ post) period := by
  have hnone : processSubscriber userId ss = none :=
    processSubscriber_none_of_error userId ss h
  have hfm : (pre ++ (userId, ss) :: post).filterMap
        (fun s => processSubscriber s.1 s.2) =
      (pre ++ post).filterMap (fun s => processSubscriber s.1 s.2) := by
    simp [List.filterMap_append, List.filterMap_cons, hnone]
  unfold getLeaderboard leaderboardList
  rw [hfm]

/-- A subscriber with two good snapshots, used in the C10 witness. -/
def goodSubscriber : String × List RawSummary :=
  ("Ugood", summariesTwoSnapshots)

/-- Witness for C10 at a concrete input: one good subscriber plus one whose
single snapshot fails to parse. -/
theorem subscriber_failure_excluded_witness :
    getLeaderboard ([ goodSubscriber ] ++ ("Ubad", [ Except.error () ]) :: []) "day" =
      getLeaderboard ([ goodSubscriber ] ++ []) "day" :=
  subscriber_failure_excludes_only_that_subscriber [ goodSubscriber ] []
    "Ubad" [ Except.error () ] "day" (by simp)

theorem addLangEntry_fst (pk lk : String) (e : String × List String) :
    (addLangEntry pk lk e).1 = e.1 := by
  unfold addLangEntry
  by_cases h : (e.1 == pk) = true
  · rw [if_pos h]
  · rw [if_neg h]

theorem mem_addLangEntry_snd (pk lk : String) (e : String × List String)
    (x : String) (hx : x ∈ e.2) : x ∈ (addLangEntry pk lk e).2 := by
  unfold addLangEntry
  by_cases h : (e.1 == pk) = true
  · rw [if_pos h]
    by_cases hc : e.2.contains lk = true
    · rw [if_pos hc]
      exact hx
    · rw [if_neg hc]
      exact List.mem_append_left _ hx
  · rw [if_neg h]
    exact hx

theorem lk_mem_addLangEntry (pk lk : String) (e : String × List String)
    (h : (e.1 == pk) = true) : lk ∈ (addLangEntry pk lk e).2 := by
  unfold addLangEntry
  rw [if_pos h]
  by_cases hc : e.2.contains lk = true
  · rw [if_pos hc]
    exact List.mem_of_elem_eq_true hc
  · rw [if_neg hc]
    exact List.mem_append_right _ (List.mem_singleton.mpr rfl)

theorem find?_map_addLangEntry (pk lk k : String)
    (t : List (String × List String)) :
    (t.map (addLangEntry pk lk)).find? (fun e => e.1 == k) =
      Option.map (addLangEntry pk lk) (t.find? (fun e => e.1 == k)) := by
  induction t with
  | nil => rfl
  | cons e es ih =>
      rw [List.map_cons]
      by_cases h : (e.1 == k) = true
      · have h2 : ((addLangEntry pk lk e).1 == k) = true := by
          rw [addLangEntry_fst]
          exact h
        rw [@List.find?_cons_of_pos _ (fun e => e.1 == k) (addLangEntry pk lk e) _ h2,
            @List.find?_cons_of_pos _ (fun e => e.1 == k) e _ h]
        rfl
      · have h2 : ¬ (((addLangEntry pk lk e).1 == k) = true) := by
          rw [addLangEntry_fst]
          exact h
        rw [@List.find?_cons_of_neg _ (fun e => e.1 == k) (addLangEntry pk lk e) _ h2,
            @List.find?_cons_of_neg _ (fun e => e.1 == k) e _ h]
        exact ih

theorem mem_setLookup_setAddLang_preserve (t : List (String × List String))
    (pk lk k x : String) (hx : x ∈ setLookup t k) :
    x ∈ setLookup (setAddLang t pk lk) k := by
  cases hf : t.find? (fun e => e.1 == k) with
  | none =>
      unfold setLookup at hx
      rw [hf] at hx
      cases hx
  | some e =>
      unfold setLookup at hx
      rw [hf] at hx
      unfold setAddLang
      by_cases hany : (t.any (fun e => e.1 == pk)) = true
      · rw [if_pos hany]
        unfold setLookup
        rw [find?_map_addLangEntry, hf]
        exact mem_addLangEntry_snd pk lk e x hx
      · rw [if_neg hany]
        unfold setLookup
        rw [List.find?_append, hf]
        exact hx

theorem lk_mem_setLookup_map (pk lk : String) (t : List (String × List String))
    (hany : t.any (fun e => e.1 == pk) = true) :
    lk ∈ setLookup (t.map (addLangEntry pk lk)) pk := by
  induction t with
  | nil => cases hany
  | cons e es ih =>
      rw [List.map_cons]
      by_cases h : (e.1 == pk) = true
      · have h2 : ((addLangEntry pk lk e).1 == pk) = true := by
          rw [addLangEntry_fst]
          exact h
        unfold setLookup
        rw [@List.find?_cons_of_pos _ (fun e => e.1 == pk) (addLangEntry pk lk e) _ h2]
        exact lk_mem_addLangEntry pk lk e h
      · have hany2 : es.any (fun e => e.1 == pk) = true := by
          rcases List.any_eq_true.mp hany with ⟨y, hy, hpy⟩
          rcases List.mem_cons.mp hy with rfl | hy2
          · exact absurd hpy h
          · exact List.any_eq_true.mpr ⟨y, hy2, hpy⟩
        have h2 : ¬ (((addLangEntry pk lk e).1 == pk) = true) := by
          rw [addLangEntry_fst]
          exact h
        unfold setLookup
        rw [@List.find?_cons_of_neg _ (fun e => e.1 == pk) (addLangEntry pk lk e) _ h2]
        exact ih hany2

theorem lk_mem_setLookup_setAddLang (t : List (String × List String))
    (pk lk : String) : lk ∈ setLookup (setAddLang t pk lk) pk := by
  unfold setAddLang
  by_cases hany : (t.any (fun e => e.1 == pk)) = true
  · rw [if_pos hany]
    exact lk_mem_setLookup_map pk lk t hany
  · rw [if_neg hany]
    have hnone : t.find? (fun e => e.1 == pk) = none := by
      rw [List.find?_eq_none]
      rw [List.any_eq_true] at hany
      intro x hx hpx
      exact hany ⟨x, hx, hpx⟩
    unfold setLookup
    rw [List.find?_append, hnone,
        @List.find?_cons_of_pos _ (fun e => e.1 == pk) (pk, [lk]) [] (by simp)]
    exact List.mem_singleton.mpr rfl

theorem mem_setLookup_addFold_preserve (lk k x : String) (projs : List Project) :
    ∀ t : List (String × List String), x ∈ setLookup t k →
      x ∈ setLookup (projs.foldl (fun t proj => setAddLang t proj.key lk) t) k := by
  induction projs with
  | nil => exact fun t hx => hx
  | cons p ps ih =>
      intro t hx
      rw [List.foldl_cons]
      exact ih _ (mem_setLookup_setAddLang_preserve t p.key lk k x hx)

theorem lk_mem_setLookup_addFold (lk : String) (projs : List Project) :
    ∀ (t : List (String × List String)) (proj : Project), proj ∈ projs →
      lk ∈ setLookup (projs.foldl (fun t q => setAddLang t q.key lk) t) proj.key := by
  induction projs with
  | nil =>
      intro t proj h
      cases h
  | cons p ps ih =>
      intro t proj hmem
      rw [List.foldl_cons]
      rcases List.mem_cons.mp hmem with rfl | hmem2
      · exact mem_setLookup_addFold_preserve lk proj.key lk ps _
          (lk_mem_setLookup_setAddLang t proj.key lk)
      · exact ih _ proj hmem2

theorem build_fold_preserve (lkx k : String) (minTable : List (String × Int))
    (maxProjects : List Project) (langs : List LanguageEntry) :
    ∀ t, lkx ∈ setLookup t k →
      lkx ∈ setLookup (langs.foldl
        (fun table lang =>
          if 0 < lang.total - mapGetD minTable lang.key 0 then
            maxProjects.foldl (fun t proj => setAddLang t proj.key lang.key) table
          else table) t) k := by
  induction langs with
  | nil => exact fun t hx => hx
  | cons l ls ih =>
      intro t hx
      simp only [List.foldl_cons]
      by_cases hc : 0 < l.total - mapGetD minTable l.key 0
      · rw [if_pos hc]
        exact ih _ (mem_setLookup_addFold_preserve l.key k lkx maxProjects t hx)
      · rw [if_neg hc]
        exact ih _ hx

theorem build_fold_assoc (minTable : List (String × Int))
    (maxProjects : List Project) (langs : List LanguageEntry) :
    ∀ (t : List (String × List String)) (lang : LanguageEntry), lang ∈ langs →
      0 < lang.total - mapGetD minTable lang.key 0 →
      ∀ proj ∈ maxProjects,
        lang.key ∈ setLookup (langs.foldl
          (fun table lang =>
            if 0 < lang.total - mapGetD minTable lang.key 0 then
              maxProjects.foldl (fun t proj => setAddLang t proj.key lang.key) table
            else table) t) proj.key := by
  induction langs with
  | nil =>
      intro t lang h
      cases h
  | cons l ls ih =>
      intro t lang hmem hpos proj hproj
      simp only [List.foldl_cons]
      rcases List.mem_cons.mp hmem with rfl | hmem2
      · rw [if_pos hpos]
        exact build_fold_preserve lang.key proj.key minTable maxProjects ls _
          (lk_mem_setLookup_addFold lang.key maxProjects t proj hproj)
      · exact ih _ lang hmem2 hpos proj hproj

theorem mem_setStat (stats : List (String × ProjectStat)) (k : String)
    (v : ProjectStat) (e : String × ProjectStat)
    (he : e ∈ setStat stats k v) : e ∈ stats ∨ e = (k, v) := by
  unfold setStat at he
  by_cases hany : (stats.any (fun e => e.1 == k)) = true
  · rw [if_pos hany] at he
    rcases List.mem_map.mp he with ⟨a, ha, hae⟩
    by_cases hk : (a.1 == k) = true
    · rw [if_pos hk] at hae
      exact Or.inr hae.symm
    · rw [if_neg hk] at hae
      exact Or.inl (hae ▸ ha)
  · rw [if_neg hany] at he
    rcases List.mem_append.mp he with h1 | h2
    · exact Or.inl h1
    · exact Or.inr (List.mem_singleton.mp h2)

theorem mem_foldl_setStat (cond : Project → Prop) [DecidablePred cond]
    (mkv : Project → ProjectStat) (mps : List Project) :
    ∀ (acc : List (String × ProjectStat)) (e : String × ProjectStat),
      e ∈ mps.foldl
        (fun stats p => if cond p then setStat stats p.key (mkv p) else stats) acc →
      e ∈ acc ∨ ∃ p, p ∈ mps ∧ e = (p.key, mkv p) := by
  induction mps with
  | nil => exact fun acc e he => Or.inl he
  | cons p ps ih =>
      intro acc e he
      simp only [List.foldl_cons] at he
      rcases ih _ e he with hacc | ⟨q, hq, heq⟩
      · by_cases hc : cond p
        · rw [if_pos hc] at hacc
          rcases mem_setStat acc p.key (mkv p) e hacc with h1 | h2
          · exact Or.inl h1
          · exact Or.inr ⟨p, List.mem_cons_self p ps, h2⟩
        · rw [if_neg hc] at hacc
          exact Or.inl hacc
      · exact Or.inr ⟨q, List.mem_cons_of_mem p hq, heq⟩

theorem sortStrings_headD_least (l : List String) (hne : l ≠ []) :
    (sortStrings l).headD "" ∈ l ∧ ∀ x ∈ l, (sortStrings l).headD "" ≤ x := by
  have hperm : List.Perm (List.insertionSort (fun a b : String => a ≤ b) l) l :=
    List.perm_insertionSort _ l
  have hsorted : List.Sorted (fun a b : String => a ≤ b)
      (List.insertionSort (fun a b : String => a ≤ b) l) :=
    List.sorted_insertionSort _ l
  unfold sortStrings
  cases hs : List.insertionSort (fun a b : String => a ≤ b) l with
  | nil =>
      rw [hs] at hperm
      exact absurd (List.eq_nil_of_length_eq_zero hperm.length_eq.symm) hne
  | cons h t =>
      rw [hs] at hperm hsorted
      constructor
      · exact hperm.mem_iff.mp (List.mem_cons_self h t)
      · intro x hx
        rcases List.mem_cons.mp (hperm.mem_iff.mpr hx) with rfl | hxt
        · exact le_refl x
        · exact List.rel_of_sorted_cons hsorted x hxt

theorem mainLanguage_spec (s : Int) (assoc : List String) :
    ((assoc.filter (fun lang => !(languageDenylist.contains lang))) = [] →
       mainLanguage { seconds := s, languages := sortStrings assoc } = "") ∧
    ((assoc.filter (fun lang => !(languageDenylist.contains lang))) ≠ [] →
       mainLanguage { seconds := s, languages := sortStrings assoc } ∈
         assoc.filter (fun lang => !(languageDenylist.contains lang)) ∧
       ∀ x ∈ assoc.filter (fun lang => !(languageDenylist.contains lang)),
         mainLanguage { seconds := s, languages := sortStrings assoc } ≤ x) := by
  have hperm : List.Perm
      ((sortStrings assoc).filter (fun lang => !(languageDenylist.contains lang)))
      (assoc.filter (fun lang => !(languageDenylist.contains lang))) :=
    (List.perm_insertionSort _ assoc).filter _
  constructor
  · intro hnil
    have h0 : (sortStrings assoc).filter
        (fun lang => !(languageDenylist.contains lang)) = [] := by
      rw [hnil] at hperm
      exact List.eq_nil_of_length_eq_zero hperm.length_eq
    unfold mainLanguage
    dsimp only
    rw [h0]
    rfl
  · intro hne
    have hne2 : (sortStrings assoc).filter
        (fun lang => !(languageDenylist.contains lang)) ≠ [] := by
      intro h0
      rw [h0] at hperm
      exact hne (List.eq_nil_of_length_eq_zero hperm.symm.length_eq)
    have hh := sortStrings_headD_least _ hne2
    unfold mainLanguage
    dsimp only
    constructor
    · exact hperm.mem_iff.mp hh.1
    · intro x hx
      exact hh.2 x (hperm.mem_iff.mpr hx)

/-- C8: in the leaderboard computation, every language of the max summary
whose min-to-max delta is positive is associated with every project of the
max summary, and for each computed project entry the displayed main
language is the lexicographically least element of its associated language
set after removing the denylist values (unknown, AUTO_DETECTED,
PLAIN_TEXT, Text), or the empty string when nothing survives the filter. -/
theorem language_association_and_main_language
    (minS maxS : Summary) (maxProjects minProjectsList : List Project)
    (hmax : maxS.projects = some maxProjects)
    (hmin : minS.projects = some minProjectsList) :
    (∀ lang ∈ maxS.languages.getD [],
        0 < lang.total - mapGetD (minLangTableOf minS) lang.key 0 →
        ∀ proj ∈ maxProjects,
          lang.key ∈ setLookup (langTableOf minS maxS maxProjects) proj.key) ∧
    (∀ entry ∈ computeProjectStats (some minS) (some maxS),
        (langFiltered (langTableOf minS maxS maxProjects) entry.1 = [] →
           mainLanguage entry.2 = "") ∧
        (langFiltered (langTableOf minS maxS maxProjects) entry.1 ≠ [] →
           mainLanguage entry.2 ∈
             langFiltered (langTableOf minS maxS maxProjects) entry.1 ∧
           ∀ x ∈ langFiltered (langTableOf minS maxS maxProjects) entry.1,
             mainLanguage entry.2 ≤ x)) := by
  constructor
  · intro lang hmem hpos proj hproj
    unfold langTableOf buildProjectLanguages
    exact build_fold_assoc (minLangTableOf minS) maxProjects
      (maxS.languages.getD []) [] lang hmem hpos proj hproj
  · intro entry hentry
    have hentry2 : entry ∈ maxProjects.foldl
        (fun stats p =>
          if 0 < p.total - mapGetD (minProjectsList.map (fun p => (p.key, p.total))) p.key 0 then
            setStat stats p.key
              { seconds := p.total -
                  mapGetD (minProjectsList.map (fun p => (p.key, p.total))) p.key 0,
                languages := sortStrings
                  (setLookup (langTableOf minS maxS maxProjects) p.key) }
          else stats) [] := by
      unfold computeProjectStats at hentry
      dsimp only at hentry
      rw [hmax, hmin] at hentry
      exact hentry
    rcases mem_foldl_setStat
        (fun p => 0 < p.total -
          mapGetD (minProjectsList.map (fun q => (q.key, q.total))) p.key 0)
        (fun p => { seconds := p.total -
                      mapGetD (minProjectsList.map (fun q => (q.key, q.total))) p.key 0,
                    languages := sortStrings
                      (setLookup (langTableOf minS maxS maxProjects) p.key) })
        maxProjects [] entry hentry2 with hnil | ⟨p, hp, hpe⟩
    · cases hnil
    · subst hpe
      have hspec := mainLanguage_spec
        (p.total - mapGetD (minProjectsList.map (fun q => (q.key, q.total))) p.key 0)
        (setLookup (langTableOf minS maxS maxProjects) p.key)
      exact ⟨fun hnilf => hspec.1 hnilf, fun hnef => hspec.2 hnef⟩

/-- The max summary of the C8 witness scenario. -/
def maxSummaryWitness : Summary :=
  { projects := some [ { key := "p1", total := 50 } ],
    languages := some [ { key := "TypeScript", total := 100 } ] }

/-- The min summary of the C8 witness scenario. -/
def minSummaryWitness : Summary :=
  { projects := some [ { key := "p1", total := 0 } ], languages := some [] }

/-- Witness for C8 at a concrete input: language TypeScript has positive
delta 100 and ends up associated with project p1. -/
theorem language_association_witness :
    "TypeScript" ∈ setLookup
      (langTableOf minSummaryWitness maxSummaryWitness
        [ { key := "p1", total := 50 } ]) "p1" :=
  (language_association_and_main_language minSummaryWitness maxSummaryWitness
      [ { key := "p1", total := 50 } ] [ { key := "p1", total := 0 } ] rfl rfl).1
    { key := "TypeScript", total := 100 } (by decide) (by decide)
    { key := "p1", total := 50 } (by decide)

end SailorsLog
